import Mathlib

/-!
Verification model of the venus message-invocation runtime
(pkg/vm/vmcontext/invocation_context.go and pkg/vm/dispatch/dispatch.go).

The Go code is embedded shallowly: machine state (state tree, snapshot
stack, init-actor address map, gas, top-level counter) is an explicit
`VMState` record, the per-invocation frame (`invocationContext`) is a
`Frame` record threaded through every operation, and Go panics /
runtime aborts are an explicit `Except Panic` channel carrying either
an ExecutionPanic with an exit code or an untyped panic.  Actor method
bodies (which live outside the runtime and are dispatched reflectively
in Go) are deep-embedded as lists of runtime-facade calls so that the
dispatcher and the recursion through nested sends stay executable.
-/

namespace VenusVM

/-! ## Addresses, actors, exit codes -/

/-- go-address protocol-tagged address (ID / SECP256K1 / BLS / Actor /
Delegated / Undef), as used by the state tree and the runtime. -/
inductive Address where
  | id (n : Nat)
  | secp (key : List Nat)
  | bls (key : List Nat)
  | actorAddr (payload : List Nat)
  | delegated (ns : Nat) (sub : List Nat)
  | undef
deriving DecidableEq, Repr

/-- Protocol() == address.ID -/
def Address.isID : Address → Bool
  | .id _ => true
  | _ => false

/-- Protocol() is SECP256K1 or BLS (a public-key address). -/
def Address.isKeyProtocol : Address → Bool
  | .secp _ => true
  | .bls _ => true
  | _ => false

/-- Content identifiers are abstracted to numbers; only equality of
CIDs is ever inspected by the modelled code. -/
abbrev Cid := Nat

/-- types.Actor: the actor record stored in the state tree.
Head is an Option so that cid.Undef (an undefined head) is `none`. -/
structure Actor where
  code : Cid
  head : Option Cid
  nonce : Nat
  balance : Int
  delegatedAddress : Option Address
deriving DecidableEq, Repr

/-- exitcode.Ok -/
def OkCode : Int := 0
/-- exitcode.SysErrSenderInvalid -/
def SysErrSenderInvalid : Int := 1
/-- exitcode.SysErrSenderStateInvalid -/
def SysErrSenderStateInvalid : Int := 2
/-- exitcode.SysErrInvalidMethod -/
def SysErrInvalidMethod : Int := 3
/-- exitcode.SysErrInvalidReceiver -/
def SysErrInvalidReceiver : Int := 5
/-- exitcode.SysErrInsufficientFunds -/
def SysErrInsufficientFunds : Int := 6
/-- exitcode.SysErrOutOfGas -/
def SysErrOutOfGas : Int := 7
/-- exitcode.SysErrForbidden -/
def SysErrForbidden : Int := 8
/-- exitcode.SysErrorIllegalActor -/
def SysErrorIllegalActor : Int := 9
/-- exitcode.SysErrorIllegalArgument -/
def SysErrorIllegalArgument : Int := 10
/-- exitcode.ErrSerialization -/
def ErrSerialization : Int := 21

/-- A Go panic as trapped by invocationContext.invoke's recover handler:
either a runtime.ExecutionPanic carrying an explicit exit code
(raised by runtime.Abort / runtime.Abortf), or any other panic value. -/
inductive Panic where
  | exec (code : Int)
  | other
deriving DecidableEq, Repr

/-- Result channel of a piece of Go code that can panic. -/
abbrev PRes (α : Type) := Except Panic α

/-! ## The machine state

The state tree maps actor IDs to actor records.  `snapshots` is the
snapshot stack (spec section 5): `snapshot` pushes the current tree,
`revert` restores the top, `clearSnapshot` pops.  `resolves` is the
init actor's stable-address-to-ID map used by address resolution, with
`nextID` the next ID it hands out.  The gas tracker and the top-level
context's mutable `newActorAddressCount` are global to one top-level
message and therefore live here as well. -/

structure VMState where
  tree : List (Nat × Actor)
  snapshots : List (List (Nat × Actor))
  resolves : List (Address × Nat)
  nextID : Nat
  gasAvailable : Int
  gasUsed : Int
  newActorAddressCount : Nat
deriving DecidableEq, Repr

/-- Association-list lookup keyed by decidable equality. -/
def alookup {α β : Type} [DecidableEq α] : List (α × β) → α → Option β
  | [], _ => none
  | (k, v) :: rest, a => if k = a then some v else alookup rest a

/-- Insert-or-replace in an association list. -/
def aset {α β : Type} [DecidableEq α] : List (α × β) → α → β → List (α × β)
  | [], k, v => [(k, v)]
  | (k', v') :: rest, k, v =>
      if k' = k then (k, v) :: rest else (k', v') :: aset rest k v

/-- Remove a key from an association list. -/
def adel {α β : Type} [DecidableEq α] (l : List (α × β)) (k : α) : List (α × β) :=
  l.filter (fun p => p.fst ≠ k)

/-- Modelled from the spec: LegacyVM.normalizeAddress (not among the
excerpted sources) resolves an address to its canonical ID form via the
init actor state: ID addresses are already canonical, other addresses
are looked up in the registered-address map, Undef fails. -/
def normalizeAddress (s : VMState) (a : Address) : Option Address :=
  match a with
  | .id n => some (.id n)
  | .undef => none
  | _ => (alookup s.resolves a).map .id

/-- vm.State.GetActor: resolve the address to ID form, then look it up
in the state tree; an unresolvable or absent address is not found. -/
def stGetActor (s : VMState) (a : Address) : Option Actor :=
  match normalizeAddress s a with
  | some (.id n) => alookup s.tree n
  | _ => none

/-- vm.State.SetActor: store the record under the resolved ID key;
storing under an unresolvable address is a store-level error (`none`),
which the callers turn into an untyped panic. -/
def stSetActor (s : VMState) (a : Address) (act : Actor) : Option VMState :=
  match normalizeAddress s a with
  | some (.id n) => some { s with tree := aset s.tree n act }
  | _ => none

/-- vm.State.DeleteActor: remove the record under the resolved ID key. -/
def stDeleteActor (s : VMState) (a : Address) : Option VMState :=
  match normalizeAddress s a with
  | some (.id n) => some { s with tree := adel s.tree n }
  | _ => none

/-- vm.State.RegisterNewAddress: record a new stable-address binding in
the init actor state and return the assigned ID address. -/
def registerNewAddress (s : VMState) (a : Address) : Address × VMState :=
  (.id s.nextID,
   { s with resolves := s.resolves ++ [(a, s.nextID)], nextID := s.nextID + 1 })

/-- Modelled from the spec: GasTracker.Charge (pkg/vm/gas is not among
the excerpted sources) deducts a priced operation from the remaining
budget and hard-aborts with SysErrOutOfGas on exhaustion. -/
def chargeGas (s : VMState) (cost : Int) : VMState × PRes Unit :=
  if s.gasAvailable < cost then (s, .error (.exec SysErrOutOfGas))
  else ({ s with gasAvailable := s.gasAvailable - cost, gasUsed := s.gasUsed + cost }, .ok ())

/-- Modelled from the spec: LegacyVM.transfer (not among the excerpted
sources) debits the resolved sender and credits the resolved recipient,
aborting with SysErrInsufficientFunds when the sender's balance does not
cover the amount; a missing party is a store-level (untyped) panic. -/
def transferF (s : VMState) (fromA toA : Address) (amt : Int) : VMState × PRes Unit :=
  match normalizeAddress s fromA, normalizeAddress s toA with
  | some (.id fn), some (.id tn) =>
    match alookup s.tree fn with
    | some fa =>
      if fa.balance < amt then (s, .error (.exec SysErrInsufficientFunds))
      else
        let t1 := aset s.tree fn { fa with balance := fa.balance - amt }
        match alookup t1 tn with
        | some ta => ({ s with tree := aset t1 tn { ta with balance := ta.balance + amt } }, .ok ())
        | none => (s, .error .other)
    | none => (s, .error .other)
  | _, _ => (s, .error .other)

/-- builtin.InitActorAddr (the init actor's well-known ID address f01). -/
def initAddr : Address := .id 1

/-- builtin.SystemActorAddr (the system actor's well-known ID address f00). -/
def systemActorAddr : Address := .id 0

/-- The CID of the canonical empty object used as a fresh actor's head. -/
def EmptyObjectCid : Cid := 1

/-- Modelled from the spec: MaxCallDepth (declared outside the excerpted
sources; 4096 in Filecoin).  No claim depends on its numeric value. -/
def MaxCallDepth : Nat := 4096

/-! ## Messages, caller patterns, invocation frames -/

/-- A decoded method argument as handed to an actor method body. -/
inductive ArgVal where
  | addrArg (a : Address)
  | natArg (n : Nat)
  | unitArg
deriving DecidableEq, Repr

/-- VmMessage.Params: nil, raw bytes to be decoded by the dispatcher,
or an already-decoded value (the dispatcher's default case passes such
values through unchanged, as resolveTarget does for the constructor
parameter). -/
inductive ParamVal where
  | noParams
  | bytes (raw : List Nat)
  | preDecoded (v : ArgVal)
deriving DecidableEq, Repr

/-- VmMessage.  A `none` value models a nil big.Int. -/
structure Msg where
  fromAddr : Address
  toAddr : Address
  value : Option Int
  method : Nat
  params : ParamVal
deriving DecidableEq, Repr

/-- runtime.CallerPattern, restricted to the shapes the claims need:
match-anything and any-of-addresses.  IsMatch consults the pattern
context, whose CallerAddr is the frame's normalized msg.From. -/
inductive CallerPattern where
  | acceptAny
  | addrIn (addrs : List Address)
deriving DecidableEq, Repr

def CallerPattern.isMatch (p : CallerPattern) (caller : Address) : Bool :=
  match p with
  | .acceptAny => true
  | .addrIn l => l.contains caller

/-- invocationContext: the per-message execution frame.  `originMsg` is
the message as received, `msg` the normalized copy.  The three final
fields are ghost instrumentation: they count entries into
ValidateCaller, state-handle creations and dispatches; no branch of the
model ever reads them, they only make the claims about those events
statable. -/
structure Frame where
  originMsg : Msg
  msg : Msg
  isCallerValidated : Bool
  depth : Nat
  allowSideEffects : Bool
  vcEntered : Nat
  handlesCreated : Nat
  dispatchCount : Nat
deriving DecidableEq, Repr

/-- topLevelContext: the immutable part of the per-top-message context
(the mutable newActorAddressCount lives in VMState because it is shared
by pointer across the whole nested-call chain). -/
structure TLInfo where
  originatorStableAddress : Address
  originatorCallSeq : Nat
deriving DecidableEq, Repr

/-! ## Deterministic address derivation (NewActorAddress) -/

/-- Unsigned LEB128, as used by go-address for ID payloads. -/
def uvarint (n : Nat) : List Nat :=
  if h : n < 128 then [n] else (n % 128 + 128) :: uvarint (n / 128)
decreasing_by
  exact Nat.div_lt_self (by omega) (by omega)

/-- The raw bytes of an address: protocol tag byte followed by the
payload.  address.MarshalCBOR fails on Undef. -/
def addrBytes : Address → Option (List Nat)
  | .id n => some (0 :: uvarint n)
  | .secp k => some (1 :: k)
  | .actorAddr p => some (2 :: p)
  | .bls k => some (3 :: k)
  | .delegated ns sub => some (4 :: (uvarint ns ++ sub))
  | .undef => none

/-- CBOR major-type-2 (byte string) header for a given length. -/
def cborBytesHeader (len : Nat) : List Nat :=
  if len < 24 then [64 + len]
  else if len < 256 then [88, len]
  else [89, len / 256 % 256, len % 256]

/-- address.MarshalCBOR: canonical CBOR byte-string encoding. -/
def cborEncodeAddr (a : Address) : Option (List Nat) :=
  (addrBytes a).map (fun bs => cborBytesHeader bs.length ++ bs)

/-- binary.Write(_, binary.BigEndian, x) for a uint64. -/
def be64 (n : Nat) : List Nat :=
  [n / 2 ^ 56 % 256, n / 2 ^ 48 % 256, n / 2 ^ 40 % 256, n / 2 ^ 32 % 256,
   n / 2 ^ 24 % 256, n / 2 ^ 16 % 256, n / 2 ^ 8 % 256, n % 256]

/-- Modelled from the spec: ResolveToDeterministicAddress (not among the
excerpted sources) maps an ID address back to its registered stable
address and returns any non-ID address unchanged. -/
def resolveToDeterministicAddress (s : VMState) (a : Address) : Option Address :=
  match a with
  | .id n => ((s.resolves.find? (fun p => p.snd == n)).map Prod.fst)
  | .undef => none
  | _ => some a

/-! ## Actor method bodies and the dispatch table

Actor implementations live outside the runtime (the registry is
polymorphic over them), so method bodies are deep-embedded as straight
line sequences of runtime-facade calls followed by a return value.
This is exactly the capability set section 4.1 of the spec exposes to a
method body, and it keeps the dispatcher and nested sends executable. -/

/-- What a method entry returns, mirroring the type switch at the end of
actorDispatcher.Dispatch: a nil interface, raw bytes, *abi.EmptyValue, a
cbor.Marshaler (whose serialization may fail), or anything else. -/
inductive RetVal where
  | noneRet
  | bytesRet (b : List Nat)
  | emptyRet
  | marshalRet (enc : Option (List Nat))
  | otherRet
deriving DecidableEq, Repr

/-- One runtime-facade call made by an actor method body.  The `send`
action carries a decoder predicate for its `out` parameter: whether
out.UnmarshalCBOR succeeds on given return bytes. -/
inductive Action where
  | validateCaller (p : CallerPattern)
  | allowSideEffects (b : Bool)
  | send (toA : Address) (method : Nat) (ps : ParamVal) (value : Int) (outOk : List Nat → Bool)
  | abortWith (code : Int)
  | createActor (codeID : Cid) (addr : Address)
  | deleteActor (beneficiary : Address)
  | newActorAddr

/-- A method body: facade calls in program order, then a return value. -/
structure Body where
  actions : List Action
  ret : RetVal

/-- One entry of Actor.Exports(): its parameter decoder (ArgInterface),
its declared nil value (ArgNil), and the method body as a function of
the decoded argument. -/
structure MethodEntry where
  argDecode : List Nat → Option ArgVal
  argNil : ArgVal
  body : ArgVal → Body

/-- dispatch.Actor: the export table of one actor implementation.  An
absent (`none`) entry is an undefined method, as is an out-of-range
method number. -/
structure ActorImpl where
  exports : List (Option MethodEntry)

/-- dispatch.ExcuteError (sic): a typed execute-error carrying an exit
code.  The Go message string carries no control flow and is dropped. -/
structure ExcuteError where
  code : Int
deriving DecidableEq, Repr

/-- The fixed per-tipset environment: active network version, the
version-selected price list entries the modelled code charges, the
actor registry (getActorImpl), and the pieces of address derivation
that are version-dependent. -/
structure Env where
  nv : Nat
  onMethodInvocationCost : Int
  onCreateActorCost : Int
  onDeleteActorCost : Int
  registry : Cid → Option ActorImpl
  accountActorCode : Cid
  constructorMethod : Nat
  addressHash : List Nat → List Nat

/-! ## Frame-level operations (invocation_context.go) -/

/-- invocationContext.NewActorAddress (lines 474-501): canonical CBOR
encoding of the resolved originator stable address, then the big-endian
originator call sequence number, then the big-endian
newActorAddressCount, hashed into an actor-protocol address.  Note the
returned state: the source function only reads
topLevel.newActorAddressCount and nothing in the repository writes it,
so the state is returned unchanged. -/
def NewActorAddress (env : Env) (tl : TLInfo) (s : VMState) : VMState × PRes Address :=
  match resolveToDeterministicAddress s tl.originatorStableAddress with
  | none => (s, .error .other)
  | some origin =>
    match cborEncodeAddr origin with
    | none => (s, .error .other)
    | some enc =>
      (s, .ok (.actorAddr (env.addressHash
        (enc ++ be64 tl.originatorCallSeq ++ be64 s.newActorAddressCount))))

/-- invocationContext.ValidateCaller (lines 409-417): abort with
SysErrorIllegalActor when already validated, with SysErrForbidden when
the pattern rejects the caller, otherwise set the flag.  The ghost
vcEntered counter records the entry. -/
def ValidateCaller (p : CallerPattern) (f : Frame) (s : VMState) :
    VMState × Frame × PRes Unit :=
  let f1 := { f with vcEntered := f.vcEntered + 1 }
  if f1.isCallerValidated then (s, f1, .error (.exec SysErrorIllegalActor))
  else if p.isMatch f1.msg.fromAddr then
    (s, { f1 with isCallerValidated := true }, .ok ())
  else (s, f1, .error (.exec SysErrForbidden))

/-- invocationContext.CreateActor (lines 504-534): reject an Undef
address at network version 7 or later, reject an occupied address, then
store a fresh actor record with zero balance, the empty-object head,
nonce zero and delegatedAddress set to the address. -/
def CreateActor (env : Env) (codeID : Cid) (addr : Address) (s : VMState) :
    VMState × PRes Unit :=
  if addr = Address.undef ∧ 7 ≤ env.nv then
    (s, .error (.exec SysErrorIllegalArgument))
  else
    match stGetActor s addr with
    | some _ => (s, .error (.exec SysErrorIllegalArgument))
    | none =>
      match stSetActor s addr
          { code := codeID, head := some EmptyObjectCid, nonce := 0,
            balance := 0, delegatedAddress := some addr } with
      | some s1 => (s1, .ok ())
      | none => (s, .error .other)

/-- invocationContext.DeleteActor (lines 537-575): charge OnDeleteActor,
load the executing actor (abort SysErrorIllegalActor when absent); when
its balance is non-zero, at network version 7 or later require the
beneficiary to resolve and to differ from the deleted actor (else abort
SysErrorIllegalArgument), then transfer the balance to the beneficiary;
finally remove the actor from the state tree.
The beneficiary-payout block (the body of the non-zero-balance guard,
lines 552-568) is `deleteActorPayout`; `DeleteActor` is the whole
method. -/
def deleteActorPayout (env : Env) (s1 : VMState) (receiver : Address)
    (receiverActor : Actor) (beneficiary : Address) : VMState × PRes Unit :=
  if receiverActor.balance ≠ 0 then
    if 7 ≤ env.nv then
      match normalizeAddress s1 beneficiary with
      | none => (s1, .error (.exec SysErrorIllegalArgument))
      | some beneficiaryID =>
        if beneficiaryID = receiver then
          (s1, .error (.exec SysErrorIllegalArgument))
        else transferF s1 receiver beneficiary receiverActor.balance
    else transferF s1 receiver beneficiary receiverActor.balance
  else (s1, .ok ())

def DeleteActor (env : Env) (f : Frame) (beneficiary : Address) (s : VMState) :
    VMState × PRes Unit :=
  let receiver := f.originMsg.toAddr
  match chargeGas s env.onDeleteActorCost with
  | (s1, .error p) => (s1, .error p)
  | (s1, .ok ()) =>
    match stGetActor s1 receiver with
    | none => (s1, .error (.exec SysErrorIllegalActor))
    | some receiverActor =>
      match deleteActorPayout env s1 receiver receiverActor beneficiary with
      | (s2, .error p) => (s2, .error p)
      | (s2, .ok ()) =>
        match stDeleteActor s2 receiver with
        | some s3 => (s3, .ok ())
        | none => (s2, .error .other)

/-- newInvocationContext (lines 60-108): fresh frame with depth
parent+1; abort SysErrForbidden when the parent holds the side-effect
lock at network version 7 or later, abort SysErrForbidden when the
depth exceeds MaxCallDepth at network version 6 or later, abort
SysErrInvalidReceiver when msg.From does not resolve, and normalize
msg.To (possibly to Undef) at network versions above 3. -/
def newInvocationContext (env : Env) (s : VMState) (parent : Option Frame)
    (msg : Msg) : PRes Frame :=
  let depth : Nat := match parent with | none => 0 | some p => p.depth + 1
  let parentLocked : Bool := match parent with | none => false | some p => !p.allowSideEffects
  if parentLocked ∧ 7 ≤ env.nv then .error (.exec SysErrForbidden)
  else if MaxCallDepth < depth ∧ 6 ≤ env.nv then .error (.exec SysErrForbidden)
  else
    match normalizeAddress s msg.fromAddr with
    | none => .error (.exec SysErrInvalidReceiver)
    | some resF =>
      let msg1 := { msg with fromAddr := resF }
      let msg2 :=
        if 3 < env.nv then
          { msg1 with toAddr := (normalizeAddress s msg1.toAddr).getD Address.undef }
        else msg1
      .ok { originMsg := msg, msg := msg2, isCallerValidated := false,
            depth := depth, allowSideEffects := true,
            vcEntered := 0, handlesCreated := 0, dispatchCount := 0 }

/-! ## The invocation recursion

Nested sends recurse through invocationContext.invoke.  The recursion
is fuel-indexed: `invoke env tl n` hands `invoke env tl (n-1)` to the
bodies of the current frame as the `Recur` continuation.  Exhausted
fuel behaves like an untyped failure with the state untouched (real
executions are finite because gas and the depth limit bound them). -/

/-- invoke's observable result: final machine state, final frame (kept
for the ghost instrumentation), return bytes (`none` is a nil slice)
and the exit code. -/
abbrev InvokeOut := VMState × Frame × Option (List Nat) × Int

def outState (o : InvokeOut) : VMState := o.1
def outFrame (o : InvokeOut) : Frame := o.2.1
def outRet (o : InvokeOut) : Option (List Nat) := o.2.2.1
def outCode (o : InvokeOut) : Int := o.2.2.2

/-- The continuation that invokes an already-constructed child frame. -/
abbrev Recur := Frame → VMState → InvokeOut

/-- invocationContext.Send (lines 425-454): abort SysErrorIllegalActor
under the side-effect lock; otherwise build the child message from this
frame's normalized To as sender, construct the child context (whose
checks abort in this frame), invoke it, and on exit code 0 decode the
returned bytes into `out`, aborting ErrSerialization on failure.  The
child's exit code is returned, never raised. -/
def SendStep (env : Env) (recur : Recur) (f : Frame) (toA : Address) (methodNum : Nat)
    (ps : ParamVal) (value : Int) (outOk : List Nat → Bool) (s : VMState) :
    VMState × Frame × PRes Int :=
  if f.allowSideEffects = false then (s, f, .error (.exec SysErrorIllegalActor))
  else
    let newMsg : Msg := { fromAddr := f.msg.toAddr, toAddr := toA, value := some value,
                          method := methodNum, params := ps }
    match newInvocationContext env s (some f) newMsg with
    | .error p => (s, f, .error p)
    | .ok child =>
      match recur child s with
      | (s1, _, ret, code) =>
        if code = 0 then
          if outOk (ret.getD []) then (s1, f, .ok code)
          else (s1, f, .error (.exec ErrSerialization))
        else (s1, f, .ok code)

/-- Execute one facade call of a method body. -/
def execAction (env : Env) (tl : TLInfo) (recur : Recur) (a : Action) (f : Frame)
    (s : VMState) : VMState × Frame × PRes Unit :=
  match a with
  | .validateCaller p => ValidateCaller p f s
  | .allowSideEffects b => (s, { f with allowSideEffects := b }, .ok ())
  | .send toA m ps v outOk =>
    match SendStep env recur f toA m ps v outOk s with
    | (s1, f1, .ok _) => (s1, f1, .ok ())
    | (s1, f1, .error p) => (s1, f1, .error p)
  | .abortWith c => (s, f, .error (.exec c))
  | .createActor codeID addr =>
    match CreateActor env codeID addr s with
    | (s1, .ok ()) => (s1, f, .ok ())
    | (s1, .error p) => (s1, f, .error p)
  | .deleteActor ben =>
    match DeleteActor env f ben s with
    | (s1, .ok ()) => (s1, f, .ok ())
    | (s1, .error p) => (s1, f, .error p)
  | .newActorAddr =>
    match NewActorAddress env tl s with
    | (s1, .ok _) => (s1, f, .ok ())
    | (s1, .error p) => (s1, f, .error p)

/-- Execute a method body's facade calls in program order; a panic
(abort) stops the body and propagates to the enclosing invoke. -/
def execActions (env : Env) (tl : TLInfo) (recur : Recur) :
    List Action → Frame → VMState → VMState × Frame × PRes Unit
  | [], f, s => (s, f, .ok ())
  | a :: rest, f, s =>
    match execAction env tl recur a f s with
    | (s1, f1, .ok ()) => execActions env tl recur rest f1 s1
    | (s1, f1, .error p) => (s1, f1, .error p)

/-- actorDispatcher.signature (dispatch.go lines 148-163): out-of-range
or empty export entries are undefined methods. -/
def signatureLookup (impl : ActorImpl) (methodNum : Nat) : Except ExcuteError MethodEntry :=
  match (impl.exports.getD methodNum none) with
  | none => .error { code := SysErrInvalidMethod }
  | some e => .ok e

/-- actorDispatcher.Dispatch (dispatch.go lines 62-146): look up the
method entry; build the second argument (declared nil value for nil
params, canonical decode for raw bytes with decode failure mapped to
ErrSerialization at network version 7 or later and exit code 1 below,
pre-decoded values passed through); call the entry (whose aborts
propagate); encode the return value per its runtime type. -/
def Dispatch (env : Env) (tl : TLInfo) (recur : Recur) (impl : ActorImpl)
    (methodNum : Nat) (ps : ParamVal) (f : Frame) (s : VMState) :
    VMState × Frame × PRes (Option (List Nat) × Option ExcuteError) :=
  match signatureLookup impl methodNum with
  | .error e => (s, f, .ok (some [], some e))
  | .ok entry =>
    let argRes : Except ExcuteError ArgVal :=
      match ps with
      | .noParams => .ok entry.argNil
      | .bytes raw =>
        match entry.argDecode raw with
        | none => .error { code := if env.nv < 7 then 1 else ErrSerialization }
        | some v => .ok v
      | .preDecoded v => .ok v
    match argRes with
    | .error e => (s, f, .ok (some [], some e))
    | .ok arg =>
      match execActions env tl recur (entry.body arg).actions f s with
      | (s1, f1, .error p) => (s1, f1, .error p)
      | (s1, f1, .ok ()) =>
        match (entry.body arg).ret with
        | .noneRet => (s1, f1, .ok (none, none))
        | .bytesRet b => (s1, f1, .ok (some b, none))
        | .emptyRet => (s1, f1, .ok (some [], none))
        | .marshalRet (some bs) => (s1, f1, .ok (some bs, none))
        | .marshalRet none => (s1, f1, .ok (some [], some { code := SysErrSenderStateInvalid }))
        | .otherRet => (s1, f1, .ok (some [], some { code := SysErrInvalidMethod }))

/-- invocationContext.resolveTarget (lines 284-384): return the init
actor directly; for a present target resolve it to its ID address and
load it; for an absent target charge OnCreateActor, register a new ID,
reject non-public-key addresses with SysErrInvalidReceiver, create an
account actor and invoke its constructor as the system actor (a
constructor failure is re-raised as an abort with its exit code). -/
def resolveTarget (env : Env) (recur : Recur) (f : Frame) (target : Address)
    (s : VMState) : VMState × PRes (Actor × Address) :=
  match stGetActor s initAddr with
  | none => (s, .error (.exec SysErrSenderInvalid))
  | some initActorEntry =>
    if target = initAddr then (s, .ok (initActorEntry, initAddr))
    else
      match stGetActor s target with
      | none =>
        match chargeGas s env.onCreateActorCost with
        | (s1, .error p) => (s1, .error p)
        | (s1, .ok ()) =>
          match registerNewAddress s1 target with
          | (targetIDAddr, s2) =>
            if target.isKeyProtocol = false then
              (s2, .error (.exec SysErrInvalidReceiver))
            else
              match CreateActor env env.accountActorCode targetIDAddr s2 with
              | (s3, .error p) => (s3, .error p)
              | (s3, .ok ()) =>
                let newMsg : Msg :=
                  { fromAddr := systemActorAddr, toAddr := targetIDAddr,
                    value := some 0, method := env.constructorMethod,
                    params := .preDecoded (.addrArg target) }
                match newInvocationContext env s3 (some f) newMsg with
                | .error p => (s3, .error p)
                | .ok child =>
                  match recur child s3 with
                  | (s4, _, _, code) =>
                    if code ≠ 0 then (s4, .error (.exec code))
                    else
                      match stGetActor s4 target with
                      | some targetActor => (s4, .ok (targetActor, targetIDAddr))
                      | none => (s4, .error .other)
      | some _ =>
        match normalizeAddress s target with
        | none => (s, .error .other)
        | some targetIDAddr =>
          match stGetActor s targetIDAddr with
          | none => (s, .error (.exec SysErrInvalidReceiver))
          | some targetActor => (s, .ok (targetActor, targetIDAddr))

/-- The pre-dispatch phase of invoke (lines 223-241): assert the sender
is an ID address (a violation is a plain string panic), resolve the
target, substitute the normalized To at network versions above 3,
charge OnMethodInvocation, and transfer a non-nil non-zero value. -/
def preflight (env : Env) (recur : Recur) (f : Frame) (s : VMState) :
    VMState × Frame × PRes (Actor × Address) :=
  if f.msg.fromAddr.isID = false then (s, f, .error .other)
  else
    match resolveTarget env recur f f.originMsg.toAddr s with
    | (s1, .error p) => (s1, f, .error p)
    | (s1, .ok (toActor, toIDAddr)) =>
      let f1 := if 3 < env.nv then { f with msg := { f.msg with toAddr := toIDAddr } } else f
      match chargeGas s1 env.onMethodInvocationCost with
      | (s2, .error p) => (s2, f1, .error p)
      | (s2, .ok ()) =>
        match f1.originMsg.value with
        | some v =>
          if v ≠ 0 then
            match transferF s2 f1.msg.fromAddr toIDAddr v with
            | (s3, .error p) => (s3, f1, .error p)
            | (s3, .ok ()) => (s3, f1, .ok (toActor, toIDAddr))
          else (s2, f1, .ok (toActor, toIDAddr))
        | none => (s2, f1, .ok (toActor, toIDAddr))

/-- The guarded region of invoke (lines 223-276): after the pre-dispatch
phase, short-circuit MethodSend with a nil return, look up the actor
implementation (Modelled from the spec: getActorImpl is not among the
excerpted sources; an unknown code CID aborts with invalid-method),
create the state handle, dispatch, re-raise an execute-error as an
abort, and abort SysErrorIllegalActor when the method body returned
without validating its caller. -/
def invokeBody (env : Env) (tl : TLInfo) (recur : Recur) (f : Frame) (s : VMState) :
    VMState × Frame × PRes (Option (List Nat)) :=
  match preflight env recur f s with
  | (s1, f1, .error p) => (s1, f1, .error p)
  | (s1, f1, .ok (toActor, _)) =>
    if f1.originMsg.method = 0 then (s1, f1, .ok none)
    else
      match env.registry toActor.code with
      | none => (s1, f1, .error (.exec SysErrInvalidMethod))
      | some impl =>
        let f2 := { f1 with handlesCreated := f1.handlesCreated + 1,
                            dispatchCount := f1.dispatchCount + 1 }
        match Dispatch env tl recur impl f2.originMsg.method f2.originMsg.params f2 s1 with
        | (s2, f3, .error p) => (s2, f3, .error p)
        | (s2, f3, .ok (_, some e)) => (s2, f3, .error (.exec e.code))
        | (s2, f3, .ok (ret, none)) =>
          if f3.isCallerValidated = false then
            (s2, f3, .error (.exec SysErrorIllegalActor))
          else (s2, f3, .ok ret)

/-- vm.snapshot: push the current tree on the snapshot stack. -/
def pushSnapshot (s : VMState) : VMState := { s with snapshots := s.tree :: s.snapshots }

/-- vm.revert: restore the tree from the top snapshot. -/
def revertState (s : VMState) : VMState := { s with tree := s.snapshots.headD s.tree }

/-- vm.clearSnapshot: pop the top snapshot. -/
def clearSnapshot (s : VMState) : VMState := { s with snapshots := s.snapshots.tail }

/-- invocationContext.invoke (lines 176-277) minus the fuel: snapshot,
run the guarded region, and either clear the snapshot and return
(bytes, Ok), or - in the deferred recover handler - revert the
snapshot, map an ExecutionPanic to its exit code and anything else to
exit code 1 with empty return bytes, then clear the snapshot (the
deferred clearSnapshot runs after the recover handler). -/
def invokeStep (env : Env) (tl : TLInfo) (recur : Recur) (f : Frame) (s : VMState) :
    InvokeOut :=
  let s0 := pushSnapshot s
  match invokeBody env tl recur f s0 with
  | (s1, f1, .ok ret) => (clearSnapshot s1, f1, ret, OkCode)
  | (s1, f1, .error p) =>
    let s2 := revertState s1
    let code : Int := match p with | .exec c => c | .other => 1
    (clearSnapshot s2, f1, some [], code)

/-- The fuel-indexed tie of the recursion: invocationContext.invoke. -/
def invoke (env : Env) (tl : TLInfo) : Nat → Frame → VMState → InvokeOut
  | 0, f, s => (s, f, some [], 1)
  | n + 1, f, s => invokeStep env tl (invoke env tl n) f s

/-! ## Association-list facts -/

theorem aset_alookup_self {α β : Type} [DecidableEq α] (l : List (α × β)) (k : α) (v : β) :
    alookup (aset l k v) k = some v := by
  induction l with
  | nil => simp [aset, alookup]
  | cons p rest ih =>
    by_cases h : p.fst = k
    · simp [aset, alookup, h]
    · simp [aset, alookup, h, ih]

theorem aset_alookup_ne {α β : Type} [DecidableEq α] (l : List (α × β)) (k k' : α) (v : β)
    (hne : k ≠ k') : alookup (aset l k v) k' = alookup l k' := by
  induction l with
  | nil => simp [aset, alookup, hne]
  | cons p rest ih =>
    by_cases h : p.fst = k
    · simp [aset, alookup, h, hne]
    · simp [aset, alookup, h, ih]

theorem adel_alookup_self {α β : Type} [DecidableEq α] (l : List (α × β)) (k : α) :
    alookup (adel l k) k = none := by
  induction l with
  | nil => simp [adel, alookup]
  | cons p rest ih =>
    by_cases h : p.fst = k
    · simpa [adel, alookup, h] using ih
    · simpa [adel, alookup, h] using ih

/-! ## Snapshot-stack preservation

Only pushSnapshot / revertState / clearSnapshot inside invokeStep touch
the snapshot stack; every other operation leaves it unchanged.  These
lemmas drive the rollback argument. -/

theorem chargeGas_snaps (s : VMState) (c : Int) :
    ((chargeGas s c).1).snapshots = s.snapshots := by
  unfold chargeGas; split <;> rfl

theorem chargeGas_resolves (s : VMState) (c : Int) :
    ((chargeGas s c).1).resolves = s.resolves := by
  unfold chargeGas; split <;> rfl

theorem chargeGas_tree (s : VMState) (c : Int) :
    ((chargeGas s c).1).tree = s.tree := by
  unfold chargeGas; split <;> rfl

theorem transferF_snaps (s : VMState) (a b : Address) (amt : Int) :
    ((transferF s a b amt).1).snapshots = s.snapshots := by
  simp only [transferF]
  repeat' split
  all_goals rfl

theorem stSetActor_snaps {s : VMState} {a : Address} {act : Actor} {s1 : VMState}
    (h : stSetActor s a act = some s1) : s1.snapshots = s.snapshots := by
  unfold stSetActor at h
  split at h
  · injection h with h1; subst h1; rfl
  · cases h

theorem stDeleteActor_snaps {s : VMState} {a : Address} {s1 : VMState}
    (h : stDeleteActor s a = some s1) : s1.snapshots = s.snapshots := by
  unfold stDeleteActor at h
  split at h
  · injection h with h1; subst h1; rfl
  · cases h

theorem registerNewAddress_snaps (s : VMState) (a : Address) :
    ((registerNewAddress s a).2).snapshots = s.snapshots := rfl

theorem CreateActor_snaps (env : Env) (c : Cid) (a : Address) (s : VMState) :
    ((CreateActor env c a s).1).snapshots = s.snapshots := by
  unfold CreateActor
  repeat' split
  all_goals first
    | rfl
    | (rename_i h; exact stSetActor_snaps h)

theorem deleteActorPayout_snaps (env : Env) (s1 : VMState) (r : Address) (ra : Actor)
    (b : Address) : ((deleteActorPayout env s1 r ra b).1).snapshots = s1.snapshots := by
  unfold deleteActorPayout
  repeat' split
  all_goals first
    | rfl
    | apply transferF_snaps

theorem DeleteActor_snaps (env : Env) (f : Frame) (b : Address) (s : VMState) :
    ((DeleteActor env f b s).1).snapshots = s.snapshots := by
  simp only [DeleteActor]
  split
  case _ s1 p heq =>
    have h := chargeGas_snaps s env.onDeleteActorCost
    rw [heq] at h; exact h
  case _ s1 heq =>
    have hs1 : s1.snapshots = s.snapshots := by
      have h := chargeGas_snaps s env.onDeleteActorCost
      rw [heq] at h; exact h
    split
    · exact hs1
    case _ ra hget =>
      split
      case _ s2 p heq2 =>
        have h := deleteActorPayout_snaps env s1 f.originMsg.toAddr ra b
        rw [heq2] at h; exact h.trans hs1
      case _ s2 heq2 =>
        have hs2 : s2.snapshots = s.snapshots := by
          have h := deleteActorPayout_snaps env s1 f.originMsg.toAddr ra b
          rw [heq2] at h; exact h.trans hs1
        split
        case _ s3 heq3 => exact (stDeleteActor_snaps heq3).trans hs2
        case _ => exact hs2

theorem NewActorAddress_snaps (env : Env) (tl : TLInfo) (s : VMState) :
    ((NewActorAddress env tl s).1).snapshots = s.snapshots := by
  unfold NewActorAddress
  repeat' split
  all_goals rfl

/-- The continuation preserves the snapshot stack. -/
def SnapsOK (recur : Recur) : Prop :=
  ∀ f s s' f' r c, recur f s = (s', f', r, c) → s'.snapshots = s.snapshots

theorem chargeGas_snaps_eq {s : VMState} {c : Int} {s1 : VMState} {r : PRes Unit}
    (h : chargeGas s c = (s1, r)) : s1.snapshots = s.snapshots := by
  have h1 : (chargeGas s c).1 = s1 := by rw [h]
  rw [← h1]; exact chargeGas_snaps s c

theorem transferF_snaps_eq {s : VMState} {a b : Address} {amt : Int} {s1 : VMState}
    {r : PRes Unit} (h : transferF s a b amt = (s1, r)) : s1.snapshots = s.snapshots := by
  have h1 : (transferF s a b amt).1 = s1 := by rw [h]
  rw [← h1]; exact transferF_snaps s a b amt

theorem CreateActor_snaps_eq {env : Env} {c : Cid} {a : Address} {s s1 : VMState}
    {r : PRes Unit} (h : CreateActor env c a s = (s1, r)) : s1.snapshots = s.snapshots := by
  have h1 : (CreateActor env c a s).1 = s1 := by rw [h]
  rw [← h1]; exact CreateActor_snaps env c a s

theorem DeleteActor_snaps_eq {env : Env} {f : Frame} {b : Address} {s s1 : VMState}
    {r : PRes Unit} (h : DeleteActor env f b s = (s1, r)) : s1.snapshots = s.snapshots := by
  have h1 : (DeleteActor env f b s).1 = s1 := by rw [h]
  rw [← h1]; exact DeleteActor_snaps env f b s

theorem NewActorAddress_snaps_eq {env : Env} {tl : TLInfo} {s s1 : VMState}
    {r : PRes Address} (h : NewActorAddress env tl s = (s1, r)) :
    s1.snapshots = s.snapshots := by
  have h1 : (NewActorAddress env tl s).1 = s1 := by rw [h]
  rw [← h1]; exact NewActorAddress_snaps env tl s

theorem SendStep_snaps {env : Env} {recur : Recur} (H : SnapsOK recur)
    {f : Frame} {toA : Address} {m : Nat} {ps : ParamVal} {v : Int}
    {outOk : List Nat → Bool} {s s1 : VMState} {f1 : Frame} {r : PRes Int}
    (h : SendStep env recur f toA m ps v outOk s = (s1, f1, r)) :
    s1.snapshots = s.snapshots := by
  simp only [SendStep] at h
  repeat' split at h
  all_goals
    (have hx : _ = s1 := congrArg Prod.fst h)
  all_goals first
    | exact hx ▸ rfl
    | exact hx ▸ (H _ _ _ _ _ _ rfl)

theorem execAction_snaps {env : Env} {tl : TLInfo} {recur : Recur} (H : SnapsOK recur)
    {a : Action} {f : Frame} {s s1 : VMState} {f1 : Frame} {r : PRes Unit}
    (h : execAction env tl recur a f s = (s1, f1, r)) : s1.snapshots = s.snapshots := by
  cases a with
  | validateCaller p =>
    simp only [execAction, ValidateCaller] at h
    repeat' split at h
    all_goals exact (show _ = s1 from congrArg Prod.fst h) ▸ rfl
  | allowSideEffects b =>
    simp only [execAction] at h
    exact (show _ = s1 from congrArg Prod.fst h) ▸ rfl
  | send toA m ps v outOk =>
    simp only [execAction] at h
    split at h
    all_goals exact (show _ = s1 from congrArg Prod.fst h) ▸ SendStep_snaps H (by assumption)
  | abortWith c =>
    simp only [execAction] at h
    exact (show _ = s1 from congrArg Prod.fst h) ▸ rfl
  | createActor codeID addr =>
    simp only [execAction] at h
    split at h
    all_goals exact (show _ = s1 from congrArg Prod.fst h) ▸ CreateActor_snaps_eq (by assumption)
  | deleteActor ben =>
    simp only [execAction] at h
    split at h
    all_goals exact (show _ = s1 from congrArg Prod.fst h) ▸ DeleteActor_snaps_eq (by assumption)
  | newActorAddr =>
    simp only [execAction] at h
    split at h
    all_goals exact (show _ = s1 from congrArg Prod.fst h) ▸ NewActorAddress_snaps_eq (by assumption)

theorem execActions_snaps {env : Env} {tl : TLInfo} {recur : Recur} (H : SnapsOK recur) :
    ∀ (acts : List Action) (f : Frame) (s : VMState) {s1 : VMState} {f1 : Frame}
      {r : PRes Unit}, execActions env tl recur acts f s = (s1, f1, r) →
      s1.snapshots = s.snapshots := by
  intro acts
  induction acts with
  | nil =>
    intro f s s1 f1 r h
    exact (show _ = s1 from congrArg Prod.fst h) ▸ rfl
  | cons a rest ih =>
    intro f s s1 f1 r h
    simp only [execActions] at h
    split at h
    · exact (ih _ _ h).trans (execAction_snaps H (by assumption))
    · exact (show _ = s1 from congrArg Prod.fst h) ▸ execAction_snaps H (by assumption)

theorem Dispatch_snaps {env : Env} {tl : TLInfo} {recur : Recur} (H : SnapsOK recur)
    {impl : ActorImpl} {mn : Nat} {ps : ParamVal} {f : Frame} {s s1 : VMState}
    {f1 : Frame} {r : PRes (Option (List Nat) × Option ExcuteError)}
    (h : Dispatch env tl recur impl mn ps f s = (s1, f1, r)) :
    s1.snapshots = s.snapshots := by
  simp only [Dispatch] at h
  repeat' split at h
  all_goals (have hx : _ = s1 := congrArg Prod.fst h)
  all_goals first
    | exact hx ▸ rfl
    | exact hx ▸ execActions_snaps H _ _ _ (by assumption)

theorem resolveTarget_snaps {env : Env} {recur : Recur} (H : SnapsOK recur)
    {f : Frame} {target : Address} {s s1 : VMState} {r : PRes (Actor × Address)}
    (h : resolveTarget env recur f target s = (s1, r)) : s1.snapshots = s.snapshots := by
  simp only [resolveTarget] at h
  repeat' split at h
  all_goals (have hx : _ = s1 := congrArg Prod.fst h)
  all_goals first
    | exact hx ▸ rfl
    | exact hx ▸ chargeGas_snaps_eq (by assumption)
    | exact hx ▸ ((registerNewAddress_snaps _ _).trans (chargeGas_snaps_eq (by assumption)))
    | exact hx ▸ ((CreateActor_snaps_eq (by assumption)).trans
        ((registerNewAddress_snaps _ _).trans (chargeGas_snaps_eq (by assumption))))
    | exact hx ▸ ((H _ _ _ _ _ _ rfl).trans ((CreateActor_snaps_eq (by assumption)).trans
        ((registerNewAddress_snaps _ _).trans (chargeGas_snaps_eq (by assumption)))))

theorem preflight_snaps {env : Env} {recur : Recur} (H : SnapsOK recur)
    {f : Frame} {s s1 : VMState} {f1 : Frame} {r : PRes (Actor × Address)}
    (h : preflight env recur f s = (s1, f1, r)) : s1.snapshots = s.snapshots := by
  simp only [preflight] at h
  repeat' split at h
  all_goals (have hx : _ = s1 := congrArg Prod.fst h)
  all_goals first
    | exact hx ▸ rfl
    | exact hx ▸ resolveTarget_snaps H (by assumption)
    | exact hx ▸ ((chargeGas_snaps_eq (by assumption)).trans
        (resolveTarget_snaps H (by assumption)))
    | exact hx ▸ ((transferF_snaps_eq (by assumption)).trans
        ((chargeGas_snaps_eq (by assumption)).trans (resolveTarget_snaps H (by assumption))))

theorem invokeBody_snaps {env : Env} {tl : TLInfo} {recur : Recur} (H : SnapsOK recur)
    {f : Frame} {s s1 : VMState} {f1 : Frame} {r : PRes (Option (List Nat))}
    (h : invokeBody env tl recur f s = (s1, f1, r)) : s1.snapshots = s.snapshots := by
  simp only [invokeBody] at h
  repeat' split at h
  all_goals (have hx : _ = s1 := congrArg Prod.fst h)
  all_goals first
    | exact hx ▸ preflight_snaps H (by assumption)
    | exact hx ▸ ((Dispatch_snaps H (by assumption)).trans (preflight_snaps H (by assumption)))

theorem invoke_snaps (env : Env) (tl : TLInfo) : ∀ n, SnapsOK (invoke env tl n) := by
  intro n
  induction n with
  | zero =>
    intro f s s' f' r c h
    exact (show _ = s' from congrArg Prod.fst h) ▸ rfl
  | succ n ih =>
    intro f s s' f' r c h
    simp only [invoke, invokeStep] at h
    split at h
    case _ s1 f1 ret heq =>
      have h1 : s1.snapshots = (pushSnapshot s).snapshots := invokeBody_snaps ih heq
      have hx : (clearSnapshot s1) = s' := congrArg Prod.fst h
      rw [← hx]
      simp only [clearSnapshot, h1, pushSnapshot, List.tail_cons]
    case _ s1 f1 p heq =>
      have h1 : s1.snapshots = (pushSnapshot s).snapshots := invokeBody_snaps ih heq
      have hx : (clearSnapshot (revertState s1)) = s' := congrArg Prod.fst h
      rw [← hx]
      simp only [clearSnapshot, revertState, h1, pushSnapshot, List.tail_cons]

/-- Rollback: whenever invoke hands back a non-zero exit code, the state
tree is exactly what it was before the invocation. -/
theorem invoke_nonzero_tree (env : Env) (tl : TLInfo) :
    ∀ n f s s' f' r c, invoke env tl n f s = (s', f', r, c) → c ≠ 0 →
      s'.tree = s.tree := by
  intro n f s s' f' r c h hc
  cases n with
  | zero =>
    exact (show _ = s' from congrArg Prod.fst h) ▸ rfl
  | succ n =>
    simp only [invoke, invokeStep] at h
    split at h
    case _ s1 f1 ret heq =>
      exfalso
      have : OkCode = c := congrArg (fun o => o.2.2.2) h
      exact hc (this ▸ rfl)
    case _ s1 f1 p heq =>
      have h1 : s1.snapshots = (pushSnapshot s).snapshots :=
        invokeBody_snaps (invoke_snaps env tl n) heq
      have hx : (clearSnapshot (revertState s1)) = s' := congrArg Prod.fst h
      rw [← hx]
      simp only [clearSnapshot, revertState, h1, pushSnapshot, List.tail_cons, List.headD_cons]

/-! ## Caller-validation accounting

The ghost vcEntered counter together with isCallerValidated obeys a
simple bookkeeping discipline along every method body that completes
without aborting: a frame that was already validated stays validated
with no further ValidateCaller entries (a further entry would abort),
and a frame that starts unvalidated admits exactly one entry, recorded
by the flag. -/

def VCAccount (f f1 : Frame) : Prop :=
  (f.isCallerValidated = true → f1.isCallerValidated = true ∧ f1.vcEntered = f.vcEntered)
  ∧ (f.isCallerValidated = false →
      f1.vcEntered = f.vcEntered + (if f1.isCallerValidated then 1 else 0))

theorem VCAccount.rfl (f : Frame) : VCAccount f f := by
  constructor
  · intro h; exact ⟨h, by rfl⟩
  · intro h; simp [h]

theorem VCAccount.trans {f f1 f2 : Frame} (h1 : VCAccount f f1) (h2 : VCAccount f1 f2) :
    VCAccount f f2 := by
  obtain ⟨t1, e1⟩ := h1
  obtain ⟨t2, e2⟩ := h2
  constructor
  · intro h
    obtain ⟨hv, hc⟩ := t1 h
    obtain ⟨hv2, hc2⟩ := t2 hv
    exact ⟨hv2, hc2.trans hc⟩
  · intro h
    have he1 := e1 h
    cases hv1 : f1.isCallerValidated with
    | true =>
      obtain ⟨hv2, hc2⟩ := t2 hv1
      rw [hc2, he1, hv1, hv2]
    | false =>
      have he2 := e2 hv1
      rw [he2, he1, hv1]
      simp

/-- Frames handed back by SendStep are the caller's frame unchanged. -/
theorem SendStep_frame {env : Env} {recur : Recur} {f : Frame} {toA : Address} {m : Nat}
    {ps : ParamVal} {v : Int} {outOk : List Nat → Bool} {s s1 : VMState} {f1 : Frame}
    {r : PRes Int} (h : SendStep env recur f toA m ps v outOk s = (s1, f1, r)) :
    f1 = f := by
  simp only [SendStep] at h
  repeat' split at h
  all_goals exact (show _ = f1 from congrArg (fun x => x.2.1) h) ▸ rfl

theorem execAction_vc {env : Env} {tl : TLInfo} {recur : Recur} {a : Action} {f : Frame}
    {s s1 : VMState} {f1 : Frame}
    (h : execAction env tl recur a f s = (s1, f1, Except.ok ())) : VCAccount f f1 := by
  cases a with
  | validateCaller p =>
    simp only [execAction, ValidateCaller] at h
    repeat' split at h
    · exact absurd (congrArg (fun x => x.2.2) h) (by simp)
    · have hf : _ = f1 := congrArg (fun x => x.2.1) h
      rw [← hf]
      rename_i hvalid hmatch
      constructor
      · intro hcontra; exact absurd hcontra (by simpa using hvalid)
      · intro _; simp
    · exact absurd (congrArg (fun x => x.2.2) h) (by simp)
  | allowSideEffects b =>
    simp only [execAction] at h
    exact (show _ = f1 from congrArg (fun x => x.2.1) h) ▸ VCAccount.rfl f
  | send toA m ps v outOk =>
    simp only [execAction] at h
    split at h
    · rename_i heq
      have hf : f1 = f := by
        have h1 : _ = f1 := congrArg (fun x => x.2.1) h
        rw [← h1]
        exact SendStep_frame heq
      exact hf ▸ VCAccount.rfl f1
    · exact absurd (congrArg (fun x => x.2.2) h) (by simp)
  | abortWith c =>
    simp only [execAction] at h
    exact absurd (congrArg (fun x => x.2.2) h) (by simp)
  | createActor codeID addr =>
    simp only [execAction] at h
    split at h
    · exact (show _ = f1 from congrArg (fun x => x.2.1) h) ▸ VCAccount.rfl f
    · exact absurd (congrArg (fun x => x.2.2) h) (by simp)
  | deleteActor ben =>
    simp only [execAction] at h
    split at h
    · exact (show _ = f1 from congrArg (fun x => x.2.1) h) ▸ VCAccount.rfl f
    · exact absurd (congrArg (fun x => x.2.2) h) (by simp)
  | newActorAddr =>
    simp only [execAction] at h
    split at h
    · exact (show _ = f1 from congrArg (fun x => x.2.1) h) ▸ VCAccount.rfl f
    · exact absurd (congrArg (fun x => x.2.2) h) (by simp)

theorem execActions_vc {env : Env} {tl : TLInfo} {recur : Recur} :
    ∀ (acts : List Action) (f : Frame) (s : VMState) {s1 : VMState} {f1 : Frame},
      execActions env tl recur acts f s = (s1, f1, Except.ok ()) → VCAccount f f1 := by
  intro acts
  induction acts with
  | nil =>
    intro f s s1 f1 h
    exact (show _ = f1 from congrArg (fun x => x.2.1) h) ▸ VCAccount.rfl f
  | cons a rest ih =>
    intro f s s1 f1 h
    simp only [execActions] at h
    split at h
    · rename_i heq
      exact (execAction_vc heq).trans (ih _ _ h)
    · exact absurd (congrArg (fun x => x.2.2) h) (by simp)

theorem Dispatch_vc {env : Env} {tl : TLInfo} {recur : Recur} {impl : ActorImpl}
    {mn : Nat} {ps : ParamVal} {f : Frame} {s s1 : VMState} {f1 : Frame}
    {rb : Option (List Nat)} {oe : Option ExcuteError}
    (h : Dispatch env tl recur impl mn ps f s = (s1, f1, Except.ok (rb, oe))) :
    VCAccount f f1 := by
  simp only [Dispatch] at h
  repeat' split at h
  all_goals first
    | exact (show _ = f1 from congrArg (fun x => x.2.1) h) ▸ VCAccount.rfl f
    | exact (show _ = f1 from congrArg (fun x => x.2.1) h) ▸ execActions_vc _ _ _ (by assumption)
    | exact absurd (congrArg (fun x => x.2.2) h) (by simp)

/-- The pre-dispatch phase only rewrites msg.To; everything else in the
frame, the ghost counters included, is untouched. -/
theorem preflight_frame {env : Env} {recur : Recur} {f : Frame} {s s1 : VMState}
    {f1 : Frame} {r : PRes (Actor × Address)}
    (h : preflight env recur f s = (s1, f1, r)) :
    f1.originMsg = f.originMsg ∧ f1.isCallerValidated = f.isCallerValidated
      ∧ f1.vcEntered = f.vcEntered ∧ f1.handlesCreated = f.handlesCreated
      ∧ f1.dispatchCount = f.dispatchCount ∧ f1.msg.fromAddr = f.msg.fromAddr := by
  simp only [preflight] at h
  repeat' split at h
  all_goals exact (show _ = f1 from congrArg (fun x => x.2.1) h) ▸
    ⟨rfl, rfl, rfl, rfl, rfl, rfl⟩

/-! ## Small irrelevance facts used when transporting hypotheses across
pushSnapshot and across tree-only updates. -/

theorem normalizeAddress_snaps_irrel (s : VMState) (l : List (List (Nat × Actor)))
    (a : Address) : normalizeAddress { s with snapshots := l } a = normalizeAddress s a := by
  cases a <;> rfl

theorem stGetActor_snaps_irrel (s : VMState) (l : List (List (Nat × Actor)))
    (a : Address) : stGetActor { s with snapshots := l } a = stGetActor s a := by
  simp only [stGetActor, normalizeAddress_snaps_irrel]

theorem normalizeAddress_resolves_eq {s s' : VMState} (h : s'.resolves = s.resolves)
    (a : Address) : normalizeAddress s' a = normalizeAddress s a := by
  cases a <;> simp [normalizeAddress, h]

theorem transferF_resolves (s : VMState) (a b : Address) (amt : Int) :
    ((transferF s a b amt).1).resolves = s.resolves := by
  simp only [transferF]
  repeat' split
  all_goals rfl

/-! ## The claims -/

/-- C5: constructing an invocation context whose depth exceeds
MaxCallDepth aborts with SysErrForbidden when the network version is at
least 6, and at network versions below 6 the depth check is disabled:
construction proceeds (producing a frame of the excessive depth)
whenever the sender resolves. -/
theorem claim5_depth_limit (env : Env) (s : VMState) (p : Frame) (msg : Msg) :
    (MaxCallDepth < p.depth + 1 → 6 ≤ env.nv →
      newInvocationContext env s (some p) msg
        = Except.error (Panic.exec SysErrForbidden))
    ∧ (env.nv < 6 → ∀ resF, normalizeAddress s msg.fromAddr = some resF →
      ∃ fc, newInvocationContext env s (some p) msg = Except.ok fc
        ∧ fc.depth = p.depth + 1) := by
  constructor
  · intro hd h6
    simp only [newInvocationContext]
    split
    · rfl
    · rw [if_pos ⟨hd, h6⟩]
  · intro h6 resF hres
    simp only [newInvocationContext]
    rw [if_neg (by rintro ⟨-, h7⟩; omega), if_neg (by rintro ⟨-, h6x⟩; omega), hres]
    exact ⟨_, rfl, rfl⟩

/-- C6: a Dispatch whose raw parameter bytes fail to decode into the
method entry's declared parameter type returns an execute-error with
exit code ErrSerialization at network version 7 or later and exit code
1 below version 7. -/
theorem claim6_param_decode_exit_code (env : Env) (tl : TLInfo) (recur : Recur)
    (impl : ActorImpl) (mn : Nat) (raw : List Nat) (f : Frame) (s : VMState)
    (entry : MethodEntry)
    (hsig : signatureLookup impl mn = Except.ok entry)
    (hdec : entry.argDecode raw = none) :
    Dispatch env tl recur impl mn (.bytes raw) f s
      = (s, f, Except.ok (some [],
          some { code := if env.nv < 7 then 1 else ErrSerialization })) := by
  simp only [Dispatch, hsig, hdec]

/-- C7: a Send from a frame whose allow_side_effects flag is false (the
flag is set through the state handle's AllowSideEffects) aborts with
SysErrorIllegalActor with the machine state untouched - no child
invocation context is built or invoked. -/
theorem claim7_send_side_effect_lock (env : Env) (tl : TLInfo) (recur : Recur)
    (f : Frame) (toA : Address) (m : Nat) (ps : ParamVal) (v : Int)
    (outOk : List Nat → Bool) (s : VMState) (g : Frame) (b : Bool) :
    (f.allowSideEffects = false →
      SendStep env recur f toA m ps v outOk s
        = (s, f, Except.error (Panic.exec SysErrorIllegalActor)))
    ∧ execAction env tl recur (.allowSideEffects b) g s
        = (s, { g with allowSideEffects := b }, Except.ok ()) := by
  constructor
  · intro h
    simp only [SendStep, h]
    rfl
  · rfl

/-- C10: a first ValidateCaller call whose pattern rejects the caller
aborts with SysErrForbidden (not SysErrorIllegalActor), and the frame's
is_caller_validated flag remains unset. -/
theorem claim10_validate_mismatch_forbidden (p : CallerPattern) (f : Frame) (s : VMState)
    (h0 : f.isCallerValidated = false) (hm : p.isMatch f.msg.fromAddr = false) :
    ValidateCaller p f s
      = (s, { f with vcEntered := f.vcEntered + 1 },
         Except.error (Panic.exec SysErrForbidden))
    ∧ ({ f with vcEntered := f.vcEntered + 1 } : Frame).isCallerValidated = false := by
  constructor
  · simp only [ValidateCaller]
    rw [if_neg (by simpa using h0), if_neg (by simpa using hm)]
  · simpa using h0

/-- C2 (amended): NewActorAddress returns the actor-protocol address
obtained by hashing the canonical CBOR encoding of the resolved
originator stable address, then the big-endian originator call sequence
number, then the big-endian new_actor_address_count - a pure function
of those three inputs - and returns the machine state unchanged: no
code in the repository increments new_actor_address_count. -/
theorem claim2_new_actor_address_pure (env : Env) (tl : TLInfo) (s : VMState)
    (origin : Address) (enc : List Nat)
    (h1 : resolveToDeterministicAddress s tl.originatorStableAddress = some origin)
    (h2 : cborEncodeAddr origin = some enc) :
    NewActorAddress env tl s
      = (s, Except.ok (.actorAddr (env.addressHash
          (enc ++ be64 tl.originatorCallSeq ++ be64 s.newActorAddressCount)))) := by
  simp only [NewActorAddress, h1, h2]

/-- C1: invoke always hands back a (bytes, exit_code) pair - in the
model it is a total function, every panic being trapped by the recover
handler - and: whenever the returned exit code is non-zero the state
tree afterwards equals the state tree before (the entry snapshot was
reverted); an abort carrying an explicit exit code is returned as that
code, and any other unexpected panic is returned as exit code 1, both
with the snapshot reverted. -/
theorem claim1_abort_rollback (env : Env) (tl : TLInfo) (n : Nat) (f : Frame)
    (s : VMState) :
    (outCode (invoke env tl n f s) ≠ 0 →
      (outState (invoke env tl n f s)).tree = s.tree)
    ∧ (∀ s1 f1 c,
        invokeBody env tl (invoke env tl n) f (pushSnapshot s)
            = (s1, f1, Except.error (Panic.exec c)) →
        invoke env tl (n + 1) f s = (clearSnapshot (revertState s1), f1, some [], c))
    ∧ (∀ s1 f1,
        invokeBody env tl (invoke env tl n) f (pushSnapshot s)
            = (s1, f1, Except.error Panic.other) →
        invoke env tl (n + 1) f s = (clearSnapshot (revertState s1), f1, some [], 1)) := by
  refine ⟨?_, ?_, ?_⟩
  · intro hc
    exact invoke_nonzero_tree env tl n f s _ _ _ _ rfl hc
  · intro s1 f1 c heq
    simp only [invoke, invokeStep, heq]
  · intro s1 f1 heq
    simp only [invoke, invokeStep, heq]

/-- C3: a message whose method number is the reserved Send method (0)
returns (nil, Ok) immediately after the value transfer: the pre-dispatch
phase's state is final (modulo popping the snapshot), and the frame is
handed back with its ghost state-handle and dispatch counters untouched -
no actor implementation lookup, no state handle, no dispatch. -/
theorem claim3_method_send_short_circuit (env : Env) (tl : TLInfo) (n : Nat) (f : Frame)
    (s s1 : VMState) (f1 : Frame) (toActor : Actor) (toID : Address)
    (hm : f.originMsg.method = 0)
    (hp : preflight env (invoke env tl n) f (pushSnapshot s)
        = (s1, f1, Except.ok (toActor, toID))) :
    invoke env tl (n + 1) f s = (clearSnapshot s1, f1, none, OkCode)
    ∧ f1.handlesCreated = f.handlesCreated ∧ f1.dispatchCount = f.dispatchCount := by
  have hfr := preflight_frame hp
  refine ⟨?_, hfr.2.2.2.1, hfr.2.2.2.2.1⟩
  simp only [invoke, invokeStep, invokeBody, hp]
  rw [if_pos (show f1.originMsg.method = 0 by rw [hfr.1]; exact hm)]

/-- C4: for a dispatched method body (method number not 0) the
invocation succeeds only when ValidateCaller ran exactly once.
Part 1: a ValidateCaller call on an already-validated frame aborts with
SysErrorIllegalActor.  Part 2: a dispatch that completes without a
single ValidateCaller entry (the ghost counter is unchanged) makes
invoke abort with SysErrorIllegalActor after dispatch.  Part 3: when the
guarded region completes normally, the method body validated its caller
exactly once (ghost counter exactly incremented by one) and the exit
code is Ok. -/
theorem claim4_validate_exactly_once (env : Env) (tl : TLInfo) :
    (∀ p f s, f.isCallerValidated = true →
        (ValidateCaller p f s).2.2 = Except.error (Panic.exec SysErrorIllegalActor))
    ∧ (∀ (n : Nat) (f : Frame) (s s1 : VMState) (f1 : Frame) (toActor : Actor)
        (toID : Address) (impl : ActorImpl) (s2 : VMState) (f4 : Frame)
        (rb : Option (List Nat)),
        f.isCallerValidated = false →
        f.originMsg.method ≠ 0 →
        preflight env (invoke env tl n) f (pushSnapshot s)
            = (s1, f1, Except.ok (toActor, toID)) →
        env.registry toActor.code = some impl →
        Dispatch env tl (invoke env tl n) impl f1.originMsg.method f1.originMsg.params
            { f1 with handlesCreated := f1.handlesCreated + 1,
                      dispatchCount := f1.dispatchCount + 1 } s1
          = (s2, f4, Except.ok (rb, none)) →
        f4.vcEntered = f1.vcEntered →
        outCode (invoke env tl (n + 1) f s) = SysErrorIllegalActor)
    ∧ (∀ (n : Nat) (f : Frame) (s s1 : VMState) (f1 : Frame) (ret : Option (List Nat)),
        f.isCallerValidated = false →
        f.originMsg.method ≠ 0 →
        invokeBody env tl (invoke env tl n) f (pushSnapshot s)
            = (s1, f1, Except.ok ret) →
        f1.isCallerValidated = true ∧ f1.vcEntered = f.vcEntered + 1
          ∧ invoke env tl (n + 1) f s = (clearSnapshot s1, f1, ret, OkCode)) := by
  refine ⟨?_, ?_, ?_⟩
  · intro p f s h
    simp only [ValidateCaller]
    rw [if_pos (by simpa using h)]
  · intro n f s s1 f1 toActor toID impl s2 f4 rb hval hm hpre hreg hdisp hvc
    have hfr := preflight_frame hpre
    have hval1 : f1.isCallerValidated = false := hfr.2.1.trans hval
    have hacc := Dispatch_vc hdisp
    have hval4 : f4.isCallerValidated = false := by
      cases hb : f4.isCallerValidated with
      | false => rfl
      | true =>
        exfalso
        have he := hacc.2 (by simpa using hval1)
        rw [hb, hvc] at he
        simp at he
    simp only [invoke, invokeStep, invokeBody, hpre]
    rw [if_neg (show ¬ f1.originMsg.method = 0 by rw [hfr.1]; exact hm)]
    simp only [hreg, hdisp]
    rw [if_pos hval4]
    rfl
  · intro n f s s1 f1 ret hval hm hbody
    have hbody0 := hbody
    simp only [invokeBody] at hbody
    split at hbody
    case _ s1h f1h p heqpre =>
      exact absurd (congrArg (fun x => x.2.2) hbody) (by simp)
    case _ s1h f1h toActor toID heqpre =>
      have hfr := preflight_frame heqpre
      split at hbody
      case _ hm0 =>
        exact absurd (hfr.1 ▸ hm0) hm
      case _ hm0 =>
        split at hbody
        case _ => exact absurd (congrArg (fun x => x.2.2) hbody) (by simp)
        case _ impl hreg =>
          split at hbody
          · exact absurd (congrArg (fun x => x.2.2) hbody) (by simp)
          · exact absurd (congrArg (fun x => x.2.2) hbody) (by simp)
          · rename_i s2 f3 rb2 hdisp
            split at hbody
            · exact absurd (congrArg (fun x => x.2.2) hbody) (by simp)
            · rename_i hval3
              have hval3' : f3.isCallerValidated = true := by
                cases hb : f3.isCallerValidated with
                | true => rfl
                | false => exact absurd hb hval3
              have hf3 : f3 = f1 := congrArg (fun x => x.2.1) hbody
              have hval1 : f1.isCallerValidated = true := hf3 ▸ hval3'
              have hacc := Dispatch_vc hdisp
              have hvc1 : f3.vcEntered =
                  ({ f1h with handlesCreated := f1h.handlesCreated + 1,
                              dispatchCount := f1h.dispatchCount + 1 } : Frame).vcEntered + 1 := by
                have he := hacc.2 (by simpa using hfr.2.1.trans hval)
                rw [hval3'] at he
                simpa using he
              refine ⟨hval1, ?_, ?_⟩
              · have : f1.vcEntered = f1h.vcEntered + 1 := by
                  rw [← hf3, hvc1]
                rw [this, hfr.2.2.1]
              · simp only [invoke, invokeStep, hbody0]

/-- For an absent target that is not a public-key address, resolveTarget
charges OnCreateActor, registers a new ID, and then aborts with
SysErrInvalidReceiver. -/
theorem resolveTarget_nonkey_invalid_receiver {env : Env} (recur : Recur) (f : Frame)
    {target : Address} {s : VMState} {ia : Actor}
    (hinit : stGetActor s initAddr = some ia)
    (htarget : target ≠ initAddr)
    (habsent : stGetActor s target = none)
    (hkey : target.isKeyProtocol = false)
    (hgas : env.onCreateActorCost ≤ s.gasAvailable) :
    resolveTarget env recur f target s
      = ((registerNewAddress
            { s with gasAvailable := s.gasAvailable - env.onCreateActorCost,
                     gasUsed := s.gasUsed + env.onCreateActorCost } target).2,
         Except.error (Panic.exec SysErrInvalidReceiver)) := by
  have hch : chargeGas s env.onCreateActorCost
      = ({ s with gasAvailable := s.gasAvailable - env.onCreateActorCost,
                  gasUsed := s.gasUsed + env.onCreateActorCost }, Except.ok ()) := by
    simp only [chargeGas]
    rw [if_neg (not_lt.mpr hgas)]
  simp only [resolveTarget, hinit, habsent]
  rw [if_neg htarget]
  simp only [hch]
  rw [if_pos hkey]

/-- C9: a recipient address absent from the state tree whose protocol is
neither BLS nor SECP256K1 makes target resolution abort with
SysErrInvalidReceiver (implicit account creation is only for public-key
addresses), and the abort reverts the invocation's snapshot: invoke
returns exit code SysErrInvalidReceiver with the state tree exactly as
before, so the failed invocation creates no actor. -/
theorem claim9_implicit_creation_rejected (env : Env) (tl : TLInfo) (n : Nat)
    (f : Frame) (s : VMState) (ia : Actor)
    (hinit : stGetActor s initAddr = some ia)
    (htarget : f.originMsg.toAddr ≠ initAddr)
    (habsent : stGetActor s f.originMsg.toAddr = none)
    (hkey : f.originMsg.toAddr.isKeyProtocol = false)
    (hgas : env.onCreateActorCost ≤ s.gasAvailable)
    (hfrom : f.msg.fromAddr.isID = true) :
    (∀ recur, resolveTarget env recur f f.originMsg.toAddr s
        = ((registerNewAddress
              { s with gasAvailable := s.gasAvailable - env.onCreateActorCost,
                       gasUsed := s.gasUsed + env.onCreateActorCost } f.originMsg.toAddr).2,
           Except.error (Panic.exec SysErrInvalidReceiver)))
    ∧ outCode (invoke env tl (n + 1) f s) = SysErrInvalidReceiver
    ∧ (outState (invoke env tl (n + 1) f s)).tree = s.tree := by
  have hinitP : stGetActor (pushSnapshot s) initAddr = some ia := by
    rw [pushSnapshot, stGetActor_snaps_irrel]; exact hinit
  have habsentP : stGetActor (pushSnapshot s) f.originMsg.toAddr = none := by
    rw [pushSnapshot, stGetActor_snaps_irrel]; exact habsent
  have hgasP : env.onCreateActorCost ≤ (pushSnapshot s).gasAvailable := hgas
  have hres := resolveTarget_nonkey_invalid_receiver (invoke env tl n) f
    hinitP htarget habsentP hkey hgasP
  have hcode : outCode (invoke env tl (n + 1) f s) = SysErrInvalidReceiver := by
    simp only [invoke, invokeStep, invokeBody, preflight]
    rw [if_neg (by simp [hfrom])]
    simp only [hres]
    rfl
  refine ⟨fun recur => resolveTarget_nonkey_invalid_receiver recur f hinit htarget habsent
    hkey hgas, hcode, ?_⟩
  have h0 : (invoke env tl (n + 1) f s).2.2.2 ≠ 0 := by
    have hc := hcode
    simp only [outCode] at hc
    rw [hc]
    decide
  exact invoke_nonzero_tree env tl (n + 1) f s _ _ _ _ rfl h0

/-- C8: DeleteActor transfers the deleted actor's remaining balance to
the beneficiary and removes the actor.  At network version 7 or later
(and a non-zero remaining balance, the only case in which the source
consults the beneficiary) an unresolvable beneficiary aborts with
SysErrorIllegalArgument, as does a beneficiary resolving to the deleted
actor itself; deletion with a zero remaining balance is allowed
unconditionally.  The final conjunct pins down the modelled transfer:
the balance is debited from the deleted actor and credited to the
beneficiary. -/
theorem claim8_delete_actor_beneficiary (env : Env) (f : Frame) (ben : Address)
    (s s1 : VMState) (ra : Actor)
    (hcharge : chargeGas s env.onDeleteActorCost = (s1, Except.ok ()))
    (hget : stGetActor s1 f.originMsg.toAddr = some ra) :
    (7 ≤ env.nv → ra.balance ≠ 0 → normalizeAddress s1 ben = none →
        DeleteActor env f ben s = (s1, Except.error (Panic.exec SysErrorIllegalArgument)))
    ∧ (7 ≤ env.nv → ra.balance ≠ 0 → normalizeAddress s1 ben = some f.originMsg.toAddr →
        DeleteActor env f ben s = (s1, Except.error (Panic.exec SysErrorIllegalArgument)))
    ∧ (∀ bid s2 s3, 7 ≤ env.nv → ra.balance ≠ 0 →
        normalizeAddress s1 ben = some bid → bid ≠ f.originMsg.toAddr →
        transferF s1 f.originMsg.toAddr ben ra.balance = (s2, Except.ok ()) →
        stDeleteActor s2 f.originMsg.toAddr = some s3 →
        DeleteActor env f ben s = (s3, Except.ok ())
          ∧ stGetActor s3 f.originMsg.toAddr = none)
    ∧ (∀ s3, ra.balance = 0 → stDeleteActor s1 f.originMsg.toAddr = some s3 →
        DeleteActor env f ben s = (s3, Except.ok ()))
    ∧ (∀ (sx : VMState) (fromA toA : Address) (fn tn : Nat) (af bf : Actor) (amt : Int),
        normalizeAddress sx fromA = some (.id fn) →
        normalizeAddress sx toA = some (.id tn) →
        fn ≠ tn →
        alookup sx.tree fn = some af →
        alookup sx.tree tn = some bf →
        amt ≤ af.balance →
        transferF sx fromA toA amt
          = ({ sx with
                tree :=
                  aset (aset sx.tree fn { af with balance := af.balance - amt }) tn
                    { bf with balance := bf.balance + amt } },
             Except.ok ())) := by
  refine ⟨?_, ?_, ?_, ?_, ?_⟩
  · intro h7 hbal hbn
    have hpayout : deleteActorPayout env s1 f.originMsg.toAddr ra ben
        = (s1, Except.error (Panic.exec SysErrorIllegalArgument)) := by
      simp only [deleteActorPayout]
      rw [if_pos hbal, if_pos h7, hbn]
    simp only [DeleteActor, hcharge, hget, hpayout]
  · intro h7 hbal hbn
    have hpayout : deleteActorPayout env s1 f.originMsg.toAddr ra ben
        = (s1, Except.error (Panic.exec SysErrorIllegalArgument)) := by
      simp only [deleteActorPayout]
      rw [if_pos hbal, if_pos h7, hbn]
      dsimp only
      rw [if_pos rfl]
    simp only [DeleteActor, hcharge, hget, hpayout]
  · intro bid s2 s3 h7 hbal hbn hbidne hpay hdel
    have hpayout : deleteActorPayout env s1 f.originMsg.toAddr ra ben
        = (s2, Except.ok ()) := by
      simp only [deleteActorPayout]
      rw [if_pos hbal, if_pos h7, hbn]
      dsimp only
      rw [if_neg hbidne]
      exact hpay
    constructor
    · simp only [DeleteActor, hcharge, hget, hpayout, hdel]
    · have hdel2 := hdel
      simp only [stDeleteActor] at hdel2
      split at hdel2
      · rename_i rn heqn
        have hs3 : _ = s3 := Option.some.inj hdel2
        rw [← hs3]
        have hrn : normalizeAddress { s2 with tree := adel s2.tree rn } f.originMsg.toAddr
            = some (Address.id rn) := by
          rw [normalizeAddress_resolves_eq (by rfl)]
          exact heqn
        simp only [stGetActor, hrn]
        exact adel_alookup_self s2.tree rn
      · cases hdel2
  · intro s3 hbal0 hdel
    have hpayout : deleteActorPayout env s1 f.originMsg.toAddr ra ben
        = (s1, Except.ok ()) := by
      simp only [deleteActorPayout]
      rw [if_neg (by simp [hbal0])]
    simp only [DeleteActor, hcharge, hget, hpayout, hdel]
  · intro sx fromA toA fn tn af bf amt hnf hnt hne haf hbf hamt
    simp only [transferF, hnf, hnt, haf]
    rw [if_neg (not_lt.mpr hamt), aset_alookup_ne _ fn tn _ hne, hbf]

/-! ## Concrete evaluation fixtures

A small concrete world used to instantiate the theorems above: an init
actor at ID 1, a funded sender at ID 2, a target actor at ID 3 whose
code is registered with two methods (method 1 never validates its
caller, method 2 validates once), and delete-actor scenarios at IDs 3
and 4. -/

def hashW : List Nat → List Nat := fun l => l

def initActorW : Actor :=
  { code := 10, head := some 2, nonce := 0, balance := 0, delegatedAddress := none }

def senderActorW : Actor :=
  { code := 11, head := some 2, nonce := 0, balance := 100, delegatedAddress := none }

def targetActorW : Actor :=
  { code := 12, head := some 2, nonce := 0, balance := 0, delegatedAddress := none }

def entryPlainW : MethodEntry :=
  { argDecode := fun _ => none, argNil := .unitArg,
    body := fun _ => { actions := [], ret := .emptyRet } }

def entryValidW : MethodEntry :=
  { argDecode := fun _ => some .unitArg, argNil := .unitArg,
    body := fun _ => { actions := [.validateCaller .acceptAny], ret := .emptyRet } }

def implW : ActorImpl := { exports := [none, some entryPlainW, some entryValidW] }

def envA : Env :=
  { nv := 7, onMethodInvocationCost := 0, onCreateActorCost := 0, onDeleteActorCost := 0,
    registry := fun c => if c = 12 then some implW else none,
    accountActorCode := 50, constructorMethod := 1, addressHash := hashW }

def envGas : Env := { envA with onMethodInvocationCost := 5 }

def envLow : Env := { envA with nv := 5 }

def tlA : TLInfo := { originatorStableAddress := .secp [7, 7], originatorCallSeq := 3 }

def sA : VMState :=
  { tree := [(1, initActorW), (2, senderActorW), (3, targetActorW)], snapshots := [],
    resolves := [], nextID := 100, gasAvailable := 1000, gasUsed := 0,
    newActorAddressCount := 0 }

def sGas0 : VMState := { sA with gasAvailable := 0 }

def msgSendA : Msg :=
  { fromAddr := .id 2, toAddr := .id 1, value := some 30, method := 0, params := .noParams }

def fSendA : Frame :=
  { originMsg := msgSendA, msg := msgSendA, isCallerValidated := false, depth := 0,
    allowSideEffects := true, vcEntered := 0, handlesCreated := 0, dispatchCount := 0 }

def fBadFromA : Frame :=
  { fSendA with msg := { msgSendA with fromAddr := .secp [1] } }

def sAafterSend : VMState :=
  { sA with snapshots := [sA.tree],
            tree := [(1, { initActorW with balance := 30 }),
                     (2, { senderActorW with balance := 70 }), (3, targetActorW)] }

def sAdoneSend : VMState :=
  { sA with tree := [(1, { initActorW with balance := 30 }),
                     (2, { senderActorW with balance := 70 }), (3, targetActorW)] }

def msgM1 : Msg :=
  { fromAddr := .id 2, toAddr := .id 3, value := none, method := 1, params := .noParams }

def fM1 : Frame :=
  { originMsg := msgM1, msg := msgM1, isCallerValidated := false, depth := 0,
    allowSideEffects := true, vcEntered := 0, handlesCreated := 0, dispatchCount := 0 }

def fM1d : Frame := { fM1 with handlesCreated := 1, dispatchCount := 1 }

def msgM2 : Msg := { msgM1 with method := 2 }

def fM2 : Frame := { fM1 with originMsg := msgM2, msg := msgM2 }

def fM2v : Frame :=
  { originMsg := msgM2, msg := msgM2, isCallerValidated := true, depth := 0,
    allowSideEffects := true, vcEntered := 1, handlesCreated := 1, dispatchCount := 1 }

/-! ## Witnesses -/

/-- C1 witness: with a 5-gas method-invocation price and an empty gas
tank, the guarded region aborts out-of-gas: invoke returns exit code
SysErrOutOfGas with the state (tree included) rolled back; an untyped
panic (non-ID sender) comes back as exit code 1. -/
theorem claim1_abort_rollback_witness :
    invoke envGas tlA 1 fSendA sGas0 = (sGas0, fSendA, some [], SysErrOutOfGas)
    ∧ (outState (invoke envGas tlA 1 fSendA sGas0)).tree = sGas0.tree
    ∧ invoke envGas tlA 1 fBadFromA sGas0 = (sGas0, fBadFromA, some [], 1) := by
  refine ⟨?_, ?_, ?_⟩
  · exact (claim1_abort_rollback envGas tlA 0 fSendA sGas0).2.1
      (pushSnapshot sGas0) fSendA SysErrOutOfGas rfl
  · exact (claim1_abort_rollback envGas tlA 1 fSendA sGas0).1 (by decide)
  · exact (claim1_abort_rollback envGas tlA 0 fBadFromA sGas0).2.2
      (pushSnapshot sGas0) fBadFromA rfl

/-- C2 witness: the derivation at a concrete originator, sequence
number and counter. -/
theorem claim2_new_actor_address_pure_witness :
    NewActorAddress envA tlA sA
      = (sA, Except.ok (.actorAddr (envA.addressHash
          ([67, 1, 7, 7] ++ be64 tlA.originatorCallSeq ++ be64 sA.newActorAddressCount)))) :=
  claim2_new_actor_address_pure envA tlA sA (.secp [7, 7]) [67, 1, 7, 7] rfl rfl

/-- C2 counterexample: the claim says every NewActorAddress call
increments new_actor_address_count by one; in the code the counter is
only read.  Concretely: after a call the counter still is 0, and an
immediately repeated call returns the very same address. -/
theorem claim2_counterexample :
    (NewActorAddress envA tlA sA).1.newActorAddressCount = sA.newActorAddressCount
    ∧ sA.newActorAddressCount = 0
    ∧ NewActorAddress envA tlA ((NewActorAddress envA tlA sA).1)
        = NewActorAddress envA tlA sA :=
  ⟨rfl, rfl, rfl⟩

/-- C3 witness: a pure value transfer (method 0, value 30) returns
(nil, Ok) with the transfer applied and the ghost counters untouched. -/
theorem claim3_method_send_short_circuit_witness :
    invoke envA tlA 1 fSendA sA = (sAdoneSend, fSendA, none, OkCode)
    ∧ fSendA.handlesCreated = fSendA.handlesCreated
    ∧ fSendA.dispatchCount = fSendA.dispatchCount :=
  claim3_method_send_short_circuit envA tlA 0 fSendA sA sAafterSend fSendA
    initActorW (.id 1) rfl rfl

/-- C4 witness: a second ValidateCaller call aborts SysErrorIllegalActor;
dispatching method 1 (which never validates) makes invoke return
SysErrorIllegalActor; dispatching method 2 (which validates once)
returns Ok with the ghost counter at exactly one entry. -/
theorem claim4_validate_exactly_once_witness :
    (ValidateCaller .acceptAny { fM1 with isCallerValidated := true } sA).2.2
        = Except.error (Panic.exec SysErrorIllegalActor)
    ∧ outCode (invoke envA tlA 1 fM1 sA) = SysErrorIllegalActor
    ∧ (fM2v.isCallerValidated = true ∧ fM2v.vcEntered = fM2.vcEntered + 1
        ∧ invoke envA tlA 1 fM2 sA = (sA, fM2v, some [], OkCode)) := by
  refine ⟨?_, ?_, ?_⟩
  · exact (claim4_validate_exactly_once envA tlA).1 .acceptAny
      { fM1 with isCallerValidated := true } sA rfl
  · exact (claim4_validate_exactly_once envA tlA).2.1 0 fM1 sA (pushSnapshot sA) fM1
      targetActorW (.id 3) implW (pushSnapshot sA) fM1d (some [])
      rfl (by decide) rfl rfl rfl rfl
  · exact (claim4_validate_exactly_once envA tlA).2.2 0 fM2 sA (pushSnapshot sA) fM2v
      (some []) rfl (by decide) rfl

def p5W : Frame := { fM1 with depth := MaxCallDepth }

/-- C5 witness: at network version 7 a frame at depth MaxCallDepth + 1
is rejected with SysErrForbidden; at network version 5 the same
construction succeeds. -/
theorem claim5_depth_limit_witness :
    newInvocationContext envA sA (some p5W) msgM1
        = Except.error (Panic.exec SysErrForbidden)
    ∧ (∃ fc, newInvocationContext envLow sA (some p5W) msgM1 = Except.ok fc
        ∧ fc.depth = p5W.depth + 1) :=
  ⟨(claim5_depth_limit envA sA p5W msgM1).1 (by decide) (by decide),
   (claim5_depth_limit envLow sA p5W msgM1).2 (by decide) (.id 2) rfl⟩

def impl6W : ActorImpl := { exports := [some entryPlainW] }

/-- C6 witness: the same undecodable parameter bytes produce
ErrSerialization at network version 7 and exit code 1 at version 5. -/
theorem claim6_param_decode_exit_code_witness :
    Dispatch envA tlA (invoke envA tlA 0) impl6W 0 (.bytes [1, 2]) fM1 sA
      = (sA, fM1, Except.ok (some [], some { code := ErrSerialization }))
    ∧ Dispatch envLow tlA (invoke envLow tlA 0) impl6W 0 (.bytes [1, 2]) fM1 sA
      = (sA, fM1, Except.ok (some [], some { code := 1 })) :=
  ⟨claim6_param_decode_exit_code envA tlA (invoke envA tlA 0) impl6W 0 [1, 2] fM1 sA
      entryPlainW rfl rfl,
   claim6_param_decode_exit_code envLow tlA (invoke envLow tlA 0) impl6W 0 [1, 2] fM1 sA
      entryPlainW rfl rfl⟩

def f7W : Frame := { fM1 with allowSideEffects := false }

/-- C7 witness: a Send under the side-effect lock aborts illegal-actor
with nothing built, and AllowSideEffects drives the flag. -/
theorem claim7_send_side_effect_lock_witness :
    SendStep envA (invoke envA tlA 0) f7W (.id 1) 1 .noParams 0 (fun _ => true) sA
      = (sA, f7W, Except.error (Panic.exec SysErrorIllegalActor))
    ∧ execAction envA tlA (invoke envA tlA 0) (.allowSideEffects false) fM1 sA
      = (sA, { fM1 with allowSideEffects := false }, Except.ok ()) :=
  ⟨(claim7_send_side_effect_lock envA tlA (invoke envA tlA 0) f7W (.id 1) 1 .noParams 0
      (fun _ => true) sA fM1 false).1 rfl,
   (claim7_send_side_effect_lock envA tlA (invoke envA tlA 0) f7W (.id 1) 1 .noParams 0
      (fun _ => true) sA fM1 false).2⟩

def recvActorW : Actor :=
  { code := 13, head := some 2, nonce := 0, balance := 40, delegatedAddress := none }

def benActorW : Actor :=
  { code := 11, head := some 2, nonce := 0, balance := 5, delegatedAddress := none }

def s8W : VMState :=
  { tree := [(1, initActorW), (3, recvActorW), (4, benActorW)], snapshots := [],
    resolves := [], nextID := 100, gasAvailable := 1000, gasUsed := 0,
    newActorAddressCount := 0 }

def msg8 : Msg :=
  { fromAddr := .id 2, toAddr := .id 3, value := none, method := 4, params := .noParams }

def f8W : Frame :=
  { originMsg := msg8, msg := msg8, isCallerValidated := true, depth := 0,
    allowSideEffects := true, vcEntered := 1, handlesCreated := 1, dispatchCount := 1 }

def s8paidW : VMState :=
  { s8W with tree := [(1, initActorW), (3, { recvActorW with balance := 0 }),
                      (4, { benActorW with balance := 45 })] }

def s8doneW : VMState :=
  { s8W with tree := [(1, initActorW), (4, { benActorW with balance := 45 })] }

def recvActor0W : Actor := { recvActorW with balance := 0 }

def s8zW : VMState :=
  { s8W with tree := [(1, initActorW), (3, recvActor0W), (4, benActorW)] }

def s8zdoneW : VMState := { s8W with tree := [(1, initActorW), (4, benActorW)] }

/-- C8 witness: at network version 7 an unresolvable beneficiary and a
self-beneficiary abort SysErrorIllegalArgument; a proper beneficiary
receives the 40 remaining units and the actor disappears; a zero-balance
actor is deleted even with an unresolvable beneficiary; the modelled
transfer debits 40 from ID 3 and credits it to ID 4. -/
theorem claim8_delete_actor_beneficiary_witness :
    DeleteActor envA f8W (.secp [9]) s8W
      = (s8W, Except.error (Panic.exec SysErrorIllegalArgument))
    ∧ DeleteActor envA f8W (.id 3) s8W
      = (s8W, Except.error (Panic.exec SysErrorIllegalArgument))
    ∧ (DeleteActor envA f8W (.id 4) s8W = (s8doneW, Except.ok ())
        ∧ stGetActor s8doneW (.id 3) = none)
    ∧ DeleteActor envA f8W (.secp [99]) s8zW = (s8zdoneW, Except.ok ())
    ∧ transferF s8W (.id 3) (.id 4) 40 = (s8paidW, Except.ok ()) := by
  refine ⟨?_, ?_, ?_, ?_, ?_⟩
  · exact (claim8_delete_actor_beneficiary envA f8W (.secp [9]) s8W s8W recvActorW
      rfl rfl).1 (by decide) (by decide) rfl
  · exact (claim8_delete_actor_beneficiary envA f8W (.id 3) s8W s8W recvActorW
      rfl rfl).2.1 (by decide) (by decide) rfl
  · exact (claim8_delete_actor_beneficiary envA f8W (.id 4) s8W s8W recvActorW
      rfl rfl).2.2.1 (.id 4) s8paidW s8doneW (by decide) (by decide) rfl (by decide) rfl rfl
  · exact (claim8_delete_actor_beneficiary envA f8W (.secp [99]) s8zW s8zW recvActor0W
      rfl rfl).2.2.2.1 s8zdoneW rfl rfl
  · exact (claim8_delete_actor_beneficiary envA f8W (.id 4) s8W s8W recvActorW
      rfl rfl).2.2.2.2 s8W (.id 3) (.id 4) 3 4 recvActorW benActorW 40
      rfl rfl (by decide) rfl rfl (by decide)

def s9W : VMState :=
  { tree := [(1, initActorW), (2, senderActorW)], snapshots := [], resolves := [],
    nextID := 100, gasAvailable := 1000, gasUsed := 0, newActorAddressCount := 0 }

def msg9 : Msg :=
  { fromAddr := .id 2, toAddr := .actorAddr [9], value := some 1, method := 0,
    params := .noParams }

def f9W : Frame :=
  { originMsg := msg9, msg := msg9, isCallerValidated := false, depth := 0,
    allowSideEffects := true, vcEntered := 0, handlesCreated := 0, dispatchCount := 0 }

def s9regW : VMState :=
  { s9W with resolves := [(.actorAddr [9], 100)], nextID := 101 }

/-- C9 witness: a send to a fresh actor-style (non-key) address aborts
SysErrInvalidReceiver during target resolution and leaves the state
tree untouched. -/
theorem claim9_implicit_creation_rejected_witness :
    resolveTarget envA (invoke envA tlA 0) f9W (.actorAddr [9]) s9W
      = (s9regW, Except.error (Panic.exec SysErrInvalidReceiver))
    ∧ outCode (invoke envA tlA 1 f9W s9W) = SysErrInvalidReceiver
    ∧ (outState (invoke envA tlA 1 f9W s9W)).tree = s9W.tree := by
  have h := claim9_implicit_creation_rejected envA tlA 0 f9W s9W initActorW
    rfl (by decide) rfl rfl (by decide) rfl
  exact ⟨h.1 (invoke envA tlA 0), h.2.1, h.2.2⟩

/-- C10 witness: a mismatching first ValidateCaller aborts
SysErrForbidden with the flag still unset. -/
theorem claim10_validate_mismatch_forbidden_witness :
    ValidateCaller (.addrIn []) fM1 sA
      = (sA, { fM1 with vcEntered := 1 }, Except.error (Panic.exec SysErrForbidden))
    ∧ ({ fM1 with vcEntered := 1 } : Frame).isCallerValidated = false :=
  claim10_validate_mismatch_forbidden (.addrIn []) fM1 sA rfl rfl

end VenusVM
